import Mathlib

/-!
Formal model of `src/testdistributed_app_simple/main.py`, a UDP presence
beacon: `get_peer_ips` resolves a peer set from a service DNS name (or falls
back to the broadcast sentinel), `receiver` binds a socket and logs inbound
datagrams, and `sender` periodically resolves peers and transmits a
timestamped message to each.

Network and OS effects (hostname lookup, `getaddrinfo`, `sendto`, `recvfrom`,
socket `bind`) are modelled as explicit environment parameters carrying each
call's outcome (`Except`/event lists), so the Python control flow around them
becomes a total function.  Log output is modelled as a list of structured
`LogMsg` events, each constructor corresponding to one `log(f"...")` format
string in the source; `LogMsg.render` recovers the exact text.
-/

/-- Log events, one constructor per `log(...)` call site in `main.py`. -/
inductive LogMsg where
  | resolveError (dns e : String)
  | noPeersFound
  | sendError (ip e : String)
  | errorBinding (e : String)
  | listening (port : Nat)
  | received (ip : String) (port : Nat) (msg : String)
  | errorReceiving (e : String)
  deriving DecidableEq, Repr

/-- Rendering of each log event as the exact message text interpolated by the
corresponding f-string in `main.py` (without the `[HH:MM:SS.mmm]` prefix that
`log` prepends). -/
def LogMsg.render : LogMsg → String
  | .resolveError dns e => "Error resolving peers from " ++ dns ++ ": " ++ e
  | .noPeersFound => "No peers found."
  | .sendError ip e => "Error sending to " ++ ip ++ ": " ++ e
  | .errorBinding e => "Error binding receiver: " ++ e
  | .listening port => "Listening for UDP messages on port " ++ toString port ++ "..."
  | .received ip port msg => "Received from " ++ ip ++ ":" ++ toString port ++ " -> " ++ msg
  | .errorReceiving e => "Error receiving: " ++ e

/-- Outcomes of the two name lookups performed inside the `try` block of
`get_peer_ips`: `myIp` is `socket.gethostbyname(socket.gethostname())` and
`addrInfo` is the list of IPv4 address strings `result[4][0]` extracted from
`socket.getaddrinfo(PEER_SERVICE_DNS, None, socket.AF_INET)`.  An `error`
value means the call raised, carrying the exception's text. -/
structure ResolveEnv where
  myIp : Except String String
  addrInfo : Except String (List String)

/-- The loop `for result in results: ... if ip != my_ip: ips.add(ip)` of
`get_peer_ips`, with the Python `set` modelled as an insertion-ordered
duplicate-free list. -/
def insertIps (my_ip : String) (acc : List String) (results : List String) : List String :=
  results.foldl (fun ips ip => if ip ≠ my_ip ∧ ip ∉ ips then ips ++ [ip] else ips) acc

/-- Translation of `get_peer_ips()`.  Returns the peer list together with the
log events emitted.  If `PEER_SERVICE_DNS` is empty it returns
`['<broadcast>']` before the `try` block; otherwise any exception raised by
either lookup is caught by the single `except Exception`, logged with the
identifier, and turned into `[]`. -/
def get_peer_ips (dns : String) (env : ResolveEnv) : List String × List LogMsg :=
  if dns = "" then
    (["<broadcast>"], [])
  else
    match env.myIp with
    | Except.error e => ([], [LogMsg.resolveError dns e])
    | Except.ok my_ip =>
      match env.addrInfo with
      | Except.error e => ([], [LogMsg.resolveError dns e])
      | Except.ok results => (insertIps my_ip [] results, [])

/-- Decimal digit character, as produced by zero-padded `strftime` fields. -/
def strfDigit (n : Nat) : Char := Char.ofNat (48 + n % 10)

/-- Two-digit zero-padded field (`%H`, `%M`, `%S`). -/
def pad2 (n : Nat) : List Char := [strfDigit (n / 10), strfDigit n]

/-- Three-digit zero-padded field (milliseconds). -/
def pad3 (n : Nat) : List Char :=
  [strfDigit (n / 100), strfDigit (n / 10), strfDigit n]

/-- Six-digit zero-padded field (`%f`, microseconds). -/
def pad6 (n : Nat) : List Char :=
  [strfDigit (n / 100000), strfDigit (n / 10000), strfDigit (n / 1000),
   strfDigit (n / 100), strfDigit (n / 10), strfDigit n]

/-- Character sequence produced by
`datetime.now().strftime("%H:%M:%S.%f")` at wall-clock time
`h:m:s` and `us` microseconds. -/
def strftimeHMSf (h m s us : Nat) : List Char :=
  pad2 h ++ ':' :: pad2 m ++ ':' :: pad2 s ++ '.' :: pad6 us

/-- The timestamp string `datetime.now().strftime("%H:%M:%S.%f")[:-3]` used
by both `log` and the sender: the Python slice `[:-3]` drops the last three
characters, leaving milliseconds. -/
def nowStr (h m s us : Nat) : String :=
  String.mk (strftimeHMSf h m s us).dropLast.dropLast.dropLast

/-- The `for ip in peers` send loop of `sender()`: each iteration attempts
`s.sendto(msg_content.encode('utf-8'), (ip, PORT))` and, if the environment
says that call raised, catches the exception and logs it.  Returns the list
of transmission attempts `(ip, port, message)` in order, and the error log
events. -/
def sendAll (msg : String) (port : Nat) (sendResult : String → Except String Unit) :
    List String → List (String × Nat × String) × List LogMsg
  | [] => ([], [])
  | ip :: rest =>
    let tail := sendAll msg port sendResult rest
    match sendResult ip with
    | Except.ok _ => ((ip, port, msg) :: tail.1, tail.2)
    | Except.error e => ((ip, port, msg) :: tail.1, LogMsg.sendError ip e :: tail.2)

/-- Environment for one iteration of the `while True` loop in `sender()`:
the lookup outcomes seen by `get_peer_ips`, the wall-clock time at which
`datetime.now()` is sampled for the message, and the outcome of `sendto`
for each destination ip. -/
structure CycleInput where
  resolveEnv : ResolveEnv
  tH : Nat
  tM : Nat
  tS : Nat
  tUs : Nat
  sendResult : String → Except String Unit

/-- One iteration of the `while True` loop in `sender()`: resolve peers, log
`"No peers found."` when the list is empty, build `msg_content` once, attempt
a send to every peer, then sleep `PERIOD`.  Returns (attempts, log events,
sleep duration). -/
def senderCycle (dns msgId : String) (port : Nat) (period : ℚ) (c : CycleInput) :
    List (String × Nat × String) × List LogMsg × ℚ :=
  let resolved := get_peer_ips dns c.resolveEnv
  let peers := resolved.1
  let noPeersLogs := if peers = [] then [LogMsg.noPeersFound] else []
  let msg_content := "hola desde " ++ msgId ++ " sent at " ++ nowStr c.tH c.tM c.tS c.tUs
  let sends := sendAll msg_content port c.sendResult peers
  (sends.1, resolved.2 ++ noPeersLogs ++ sends.2, period)

/-- The sender loop unrolled over a finite trace of per-cycle environments. -/
def senderRun (dns msgId : String) (port : Nat) (period : ℚ) :
    List CycleInput → List (List (String × Nat × String) × List LogMsg × ℚ)
  | [] => []
  | c :: rest => senderCycle dns msgId port period c :: senderRun dns msgId port period rest

/-- Whether a byte is a UTF-8 continuation byte (`0x80..0xBF`). -/
def utf8Cont (b : Nat) : Bool := 0x80 ≤ b && b < 0xC0

/-- Strict UTF-8 decoding of a byte list, as performed by Python's
`bytes.decode('utf-8')`: rejects stray continuation bytes, truncated
sequences, overlong encodings, surrogate code points and values above
`0x10FFFF`; returns the decoded characters on success, `none` when the
decode raises `UnicodeDecodeError`. -/
def utf8Decode : List Nat → Option (List Char)
  | [] => some []
  | b :: bs =>
    if b < 0x80 then
      match utf8Decode bs with
      | some cs => some (Char.ofNat b :: cs)
      | none => none
    else if b < 0xC2 then none
    else if b < 0xE0 then
      match bs with
      | b1 :: bs1 =>
        if utf8Cont b1 then
          match utf8Decode bs1 with
          | some cs => some (Char.ofNat ((b - 0xC0) * 0x40 + (b1 - 0x80)) :: cs)
          | none => none
        else none
      | [] => none
    else if b < 0xF0 then
      match bs with
      | b1 :: b2 :: bs2 =>
        if utf8Cont b1 && utf8Cont b2 then
          let cp := (b - 0xE0) * 0x1000 + (b1 - 0x80) * 0x40 + (b2 - 0x80)
          if cp < 0x800 then none
          else if 0xD800 ≤ cp ∧ cp < 0xE000 then none
          else
            match utf8Decode bs2 with
            | some cs => some (Char.ofNat cp :: cs)
            | none => none
        else none
      | _ => none
    else if b < 0xF5 then
      match bs with
      | b1 :: b2 :: b3 :: bs3 =>
        if utf8Cont b1 && utf8Cont b2 && utf8Cont b3 then
          let cp := (b - 0xF0) * 0x40000 + (b1 - 0x80) * 0x1000 +
            (b2 - 0x80) * 0x40 + (b3 - 0x80)
          if cp < 0x10000 then none
          else if 0x10FFFF < cp then none
          else
            match utf8Decode bs3 with
            | some cs => some (Char.ofNat cp :: cs)
            | none => none
        else none
      | _ => none
    else none

/-- Modelled exception text of Python's `UnicodeDecodeError` as it is
interpolated into `log(f"Error receiving: {e}")`; only its routing through
the loop's generic `except Exception` branch matters to the claims. -/
def unicodeDecodeError : String := "UnicodeDecodeError"

/-- Outcome of one blocking `s.recvfrom(1024)` call in the receive loop:
either the call raised (`recvErr`), or a datagram of at most 1024 bytes
arrived from `(addrIp, addrPort)`. -/
inductive RecvEvent where
  | recvErr (e : String)
  | datagram (addrIp : String) (addrPort : Nat) (data : List Nat)
  deriving DecidableEq, Repr

/-- One iteration of the receiver's `while True` loop: `recvfrom`, decode as
UTF-8 and log the message; any exception from either step is caught by the
single `except Exception`, logged as `"Error receiving: ..."` and followed by
`time.sleep(1)`.  Returns (log events, sleep seconds). -/
def receiverStep (event : RecvEvent) : List LogMsg × Nat :=
  match event with
  | RecvEvent.recvErr e => ([LogMsg.errorReceiving e], 1)
  | RecvEvent.datagram ip port data =>
    match utf8Decode data with
    | some cs => ([LogMsg.received ip port (String.mk cs)], 0)
    | none => ([LogMsg.errorReceiving unicodeDecodeError], 1)

/-- The receive loop unrolled over a finite trace of `recvfrom` outcomes. -/
def receiverRun : List RecvEvent → List LogMsg
  | [] => []
  | ev :: rest => (receiverStep ev).1 ++ receiverRun rest

/-- Translation of `receiver()`: if `s.bind(("0.0.0.0", PORT))` raises, the
exception is caught, logged, and the function returns early, never entering
the loop; otherwise it logs the listening banner and runs the loop. -/
def receiver (port : Nat) (bindResult : Except String Unit) (events : List RecvEvent) :
    List LogMsg :=
  match bindResult with
  | Except.error e => [LogMsg.errorBinding e]
  | Except.ok _ =>
    LogMsg.listening port :: receiverRun events

/-- The `__main__` block: the receiver runs on a daemon thread and the sender
on the main thread; they share no state, so the process is the pair of their
independent outputs. -/
def runNode (dns msgId : String) (port : Nat) (period : ℚ)
    (bindResult : Except String Unit) (events : List RecvEvent)
    (cycles : List CycleInput) :
    List LogMsg × List (List (String × Nat × String) × List LogMsg × ℚ) :=
  (receiver port bindResult events, senderRun dns msgId port period cycles)

/-- Concrete resolver environment used by witnesses: own address `10.0.0.1`,
peer lookup returning three addresses including our own. -/
def envThree : ResolveEnv :=
  ⟨Except.ok "10.0.0.1", Except.ok ["10.0.0.1", "10.0.0.2", "10.0.0.3"]⟩

/-- Concrete cycle input used by witnesses: sends to `10.0.0.2` fail. -/
def cycleB : CycleInput :=
  ⟨envThree, 1, 2, 3, 123456,
   fun ip => if ip = "10.0.0.2" then Except.error "unreachable" else Except.ok ()⟩

/-- Concrete broadcast-mode cycle input used by witnesses. -/
def cycleBroadcast : CycleInput :=
  ⟨⟨Except.ok "10.0.0.1", Except.ok []⟩, 1, 2, 3, 123456, fun _ => Except.ok ()⟩

/-- Concrete cycle input whose lookup returns only the node's own address,
so that the resolved peer list is empty. -/
def cycleSelfOnly : CycleInput :=
  ⟨⟨Except.ok "10.0.0.1", Except.ok ["10.0.0.1"]⟩, 1, 2, 3, 123456,
   fun _ => Except.ok ()⟩

/-! Helper lemmas. -/

theorem insertIps_eq_filter (my_ip : String) (results : List String) :
    ∀ acc : List String, results.Nodup → (∀ x ∈ acc, x ∉ results) →
      insertIps my_ip acc results = acc ++ results.filter (fun ip => ip != my_ip) := by
  induction results with
  | nil => intro acc _ _; simp [insertIps]
  | cons r rs ih =>
    intro acc hnd hdisj
    rw [List.nodup_cons] at hnd
    have hstep : insertIps my_ip acc (r :: rs)
        = insertIps my_ip (if r ≠ my_ip ∧ r ∉ acc then acc ++ [r] else acc) rs := rfl
    by_cases hr : r = my_ip
    · rw [hstep, if_neg (by simp [hr])]
      rw [ih acc hnd.2 (fun x hx hmem => hdisj x hx (List.mem_cons_of_mem r hmem))]
      simp [List.filter_cons, hr]
    · have hrac : r ∉ acc := fun hin => hdisj r hin (List.mem_cons_self r rs)
      rw [hstep, if_pos ⟨hr, hrac⟩]
      have hdisj2 : ∀ x ∈ acc ++ [r], x ∉ rs := by
        intro x hx
        rcases List.mem_append.mp hx with h1 | h2
        · exact fun hmem => hdisj x h1 (List.mem_cons_of_mem r hmem)
        · have : x = r := by simpa using h2
          exact this ▸ hnd.1
      rw [ih (acc ++ [r]) hnd.2 hdisj2]
      have hpr : (r != my_ip) = true := bne_iff_ne.mpr hr
      simp [List.filter_cons, hpr]

theorem filter_ne_of_not_mem (a : String) (l : List String) (hnot : a ∉ l) :
    l.filter (fun x => x != a) = l :=
  List.filter_eq_self.mpr fun _ hx =>
    bne_iff_ne.mpr (fun hxa => hnot (hxa ▸ hx))

theorem length_filter_ne_of_mem (a : String) : ∀ l : List String, l.Nodup → a ∈ l →
    (l.filter (fun x => x != a)).length + 1 = l.length := by
  intro l
  induction l with
  | nil => intro _ h; cases h
  | cons r rs ih =>
    intro hnd hin
    rw [List.nodup_cons] at hnd
    rcases List.mem_cons.mp hin with h1 | h2
    · have hcr : (r != a) = false := by simp [h1]
      have hfr : rs.filter (fun x => x != a) = rs :=
        filter_ne_of_not_mem a rs (fun hmem => hnd.1 (h1 ▸ hmem))
      simp [List.filter_cons, hcr, hfr]
    · have hra : r ≠ a := fun h => hnd.1 (h ▸ h2)
      have hpr : (r != a) = true := bne_iff_ne.mpr hra
      have := ih hnd.2 h2
      simp [List.filter_cons, hpr]
      omega

theorem get_peer_ips_ok (dns : String) (env : ResolveEnv) (my_ip : String)
    (results : List String) (hdns : dns ≠ "") (hmy : env.myIp = Except.ok my_ip)
    (haddr : env.addrInfo = Except.ok results) (hnd : results.Nodup) :
    get_peer_ips dns env = (results.filter (fun ip => ip != my_ip), []) := by
  rw [get_peer_ips, if_neg hdns, hmy, haddr]
  show (insertIps my_ip [] results, ([] : List LogMsg)) = _
  rw [insertIps_eq_filter my_ip results [] hnd (fun x hx => absurd hx (List.not_mem_nil x))]
  simp

theorem sendAll_fst (msg : String) (port : Nat) (sr : String → Except String Unit) :
    ∀ peers : List String,
      (sendAll msg port sr peers).1 = peers.map (fun ip => (ip, port, msg)) := by
  intro peers
  induction peers with
  | nil => rfl
  | cons p ps ih =>
    cases h : sr p <;> simp [sendAll, h, ih]

theorem sendAll_sendError_mem (msg : String) (port : Nat)
    (sr : String → Except String Unit) (ip e : String) :
    ∀ peers : List String, ip ∈ peers → sr ip = Except.error e →
      LogMsg.sendError ip e ∈ (sendAll msg port sr peers).2 := by
  intro peers
  induction peers with
  | nil => intro h; cases h
  | cons p ps ih =>
    intro hmem herr
    rcases List.mem_cons.mp hmem with h1 | h2
    · subst h1
      rw [sendAll, herr]
      exact List.mem_cons_self _ _
    · have htail := ih h2 herr
      cases h : sr p with
      | error e2 =>
        simp [sendAll, h]
        exact Or.inr htail
      | ok u =>
        simp [sendAll, h]
        exact htail

theorem sendAll_snd_shape (msg : String) (port : Nat)
    (sr : String → Except String Unit) :
    ∀ peers : List String, ∀ l ∈ (sendAll msg port sr peers).2,
      ∃ ip e, l = LogMsg.sendError ip e := by
  intro peers
  induction peers with
  | nil => intro l h; cases h
  | cons p ps ih =>
    intro l hl
    cases h : sr p
    · rw [sendAll, h] at hl
      rcases List.mem_cons.mp hl with h1 | h2
      · exact ⟨p, _, h1⟩
      · exact ih l h2
    · rw [sendAll, h] at hl
      exact ih l hl

theorem receiverRun_append (l1 l2 : List RecvEvent) :
    receiverRun (l1 ++ l2) = receiverRun l1 ++ receiverRun l2 := by
  induction l1 with
  | nil => rfl
  | cons ev rest ih => simp [receiverRun, ih]

theorem receiverRun_mem (ev : RecvEvent) (evs : List RecvEvent) (hev : ev ∈ evs)
    (l : LogMsg) (hl : l ∈ (receiverStep ev).1) : l ∈ receiverRun evs := by
  induction evs with
  | nil => cases hev
  | cons e2 rest ih =>
    rcases List.mem_cons.mp hev with h1 | h2
    · subst h1
      exact List.mem_append.mpr (Or.inl hl)
    · exact List.mem_append.mpr (Or.inr (ih h2))

theorem nowStr_millis (h m s us : Nat) :
    nowStr h m s us
      = String.mk (pad2 h ++ ':' :: pad2 m ++ ':' :: pad2 s ++ '.' :: pad3 (us / 1000)) := by
  have h1 : us / 1000 / 100 = us / 100000 := by
    rw [Nat.div_div_eq_div_mul]
  have h2 : us / 1000 / 10 = us / 10000 := by
    rw [Nat.div_div_eq_div_mul]
  simp [nowStr, strftimeHMSf, pad2, pad3, pad6, List.dropLast, h1, h2]

/-! Claim theorems. -/

/-- C1: when the configured identifier's lookup yields N distinct IPv4
addresses, `get_peer_ips` returns exactly those addresses minus the local
node's own resolved address — N−1 of them when the local address is among
them, N otherwise — never containing the local address, and (also when every
resolved address equals the local one, leaving the result empty) it returns
normally with no error logged. -/
theorem C1_resolve_filters_own_address (dns : String) (env : ResolveEnv)
    (my_ip : String) (results : List String) (hdns : dns ≠ "")
    (hmy : env.myIp = Except.ok my_ip) (haddr : env.addrInfo = Except.ok results)
    (hnd : results.Nodup) :
    (∀ x, x ∈ (get_peer_ips dns env).1 ↔ x ∈ results ∧ x ≠ my_ip)
    ∧ my_ip ∉ (get_peer_ips dns env).1
    ∧ (get_peer_ips dns env).1.length
        = (if my_ip ∈ results then results.length - 1 else results.length)
    ∧ (get_peer_ips dns env).2 = [] := by
  have hq := get_peer_ips_ok dns env my_ip results hdns hmy haddr hnd
  rw [hq]
  refine ⟨?_, ?_, ?_, rfl⟩
  · intro x
    simp [List.mem_filter, bne_iff_ne]
  · simp [List.mem_filter]
  · by_cases hmem : my_ip ∈ results
    · rw [if_pos hmem]
      have := length_filter_ne_of_mem my_ip results hnd hmem
      simp only []
      omega
    · rw [if_neg hmem]
      simp only []
      rw [filter_ne_of_not_mem my_ip results hmem]

/-- Witness for C1 at a concrete three-address lookup containing the local
address. -/
theorem C1_witness :
    "10.0.0.2" ∈ (get_peer_ips "peers-svc"
        ⟨Except.ok "10.0.0.1", Except.ok ["10.0.0.1", "10.0.0.2", "10.0.0.3"]⟩).1
    ∧ "10.0.0.1" ∉ (get_peer_ips "peers-svc"
        ⟨Except.ok "10.0.0.1", Except.ok ["10.0.0.1", "10.0.0.2", "10.0.0.3"]⟩).1
    ∧ (get_peer_ips "peers-svc"
        ⟨Except.ok "10.0.0.1", Except.ok ["10.0.0.1", "10.0.0.2", "10.0.0.3"]⟩).1.length
      = 2 := by
  have h := C1_resolve_filters_own_address "peers-svc"
    ⟨Except.ok "10.0.0.1", Except.ok ["10.0.0.1", "10.0.0.2", "10.0.0.3"]⟩
    "10.0.0.1" ["10.0.0.1", "10.0.0.2", "10.0.0.3"]
    (by decide) rfl rfl (by decide)
  refine ⟨(h.1 "10.0.0.2").mpr (by decide), h.2.1, ?_⟩
  rw [h.2.2.1]
  decide

/-- C2: any failure during resolution (own-hostname lookup failure or a
failing peer-name lookup) is caught: `get_peer_ips` returns the empty peer
list, logs an event carrying the triggering identifier and the error detail,
and propagates no exception (it returns normally). -/
theorem C2_resolution_failure_logged (dns : String) (env : ResolveEnv) (e : String)
    (hdns : dns ≠ "")
    (herr : env.myIp = Except.error e
      ∨ ∃ my, env.myIp = Except.ok my ∧ env.addrInfo = Except.error e) :
    get_peer_ips dns env = ([], [LogMsg.resolveError dns e])
    ∧ (LogMsg.resolveError dns e).render
        = "Error resolving peers from " ++ dns ++ ": " ++ e := by
  refine ⟨?_, rfl⟩
  rcases herr with h1 | ⟨my, hmy, haddr⟩
  · simp [get_peer_ips, hdns, h1]
  · simp [get_peer_ips, hdns, hmy, haddr]

/-- Witness for C2 at a concrete failing own-hostname lookup. -/
theorem C2_witness :
    get_peer_ips "peers-svc" ⟨Except.error "lookup timeout", Except.ok []⟩
      = ([], [LogMsg.resolveError "peers-svc" "lookup timeout"])
    ∧ (LogMsg.resolveError "peers-svc" "lookup timeout").render
      = "Error resolving peers from " ++ "peers-svc" ++ ": " ++ "lookup timeout" :=
  C2_resolution_failure_logged "peers-svc" ⟨Except.error "lookup timeout", Except.ok []⟩
    "lookup timeout" (by decide) (Or.inl rfl)

/-- C3: with an unset (empty) peer-group identifier, `get_peer_ips` returns
the broadcast sentinel with no log output, and its result is independent of
every lookup outcome in the environment. -/
theorem C3_unset_identifier_broadcast (env env2 : ResolveEnv) :
    get_peer_ips "" env = (["<broadcast>"], [])
    ∧ get_peer_ips "" env = get_peer_ips "" env2 :=
  ⟨rfl, rfl⟩

/-- C4: every datagram attempted in a cycle carries exactly the UTF-8 text
`hola desde <identity> sent at <HH:MM:SS.mmm>`, where the timestamp is the
sampled wall-clock time truncated from microseconds to millisecond
precision; the message is built once per cycle, so all attempts of the cycle
carry an identical copy. -/
theorem C4_message_format (dns msgId : String) (port : Nat) (period : ℚ)
    (c : CycleInput) (a : String × Nat × String)
    (ha : a ∈ (senderCycle dns msgId port period c).1) :
    a.2.2 = "hola desde " ++ msgId ++ " sent at " ++ nowStr c.tH c.tM c.tS c.tUs
    ∧ nowStr c.tH c.tM c.tS c.tUs
        = String.mk (pad2 c.tH ++ ':' :: pad2 c.tM ++ ':' :: pad2 c.tS
            ++ '.' :: pad3 (c.tUs / 1000))
    ∧ ∀ b ∈ (senderCycle dns msgId port period c).1, b.2.2 = a.2.2 := by
  have hmap : (senderCycle dns msgId port period c).1
      = (get_peer_ips dns c.resolveEnv).1.map
          (fun ip => (ip, port,
            "hola desde " ++ msgId ++ " sent at " ++ nowStr c.tH c.tM c.tS c.tUs)) := by
    simp [senderCycle, sendAll_fst]
  have hmsg : ∀ x ∈ (senderCycle dns msgId port period c).1,
      x.2.2 = "hola desde " ++ msgId ++ " sent at " ++ nowStr c.tH c.tM c.tS c.tUs := by
    intro x hx
    rw [hmap] at hx
    rcases List.mem_map.mp hx with ⟨ip, _, hxeq⟩
    rw [← hxeq]
  refine ⟨hmsg a ha, nowStr_millis c.tH c.tM c.tS c.tUs, ?_⟩
  intro b hb
  rw [hmsg b hb, hmsg a ha]

/-- Witness for C4: in broadcast mode with the clock at 01:02:03.123456, the
one attempted datagram carries the literal text with milliseconds. -/
theorem C4_witness :
    ("<broadcast>", 37020, "hola desde python-node sent at 01:02:03.123").2.2
      = "hola desde " ++ "python-node" ++ " sent at " ++ nowStr 1 2 3 123456 := by
  have h := C4_message_format "" "python-node" 37020 2 cycleBroadcast
    ("<broadcast>", 37020, "hola desde python-node sent at 01:02:03.123")
    (by decide)
  exact h.1

/-- C5: within one send cycle every resolved peer is attempted regardless of
other peers' send outcomes (the attempted destinations are exactly the
resolved peer list), and a failing send is logged with its destination and
error without aborting the rest of the cycle. -/
theorem C5_send_failure_isolated (dns msgId : String) (port : Nat) (period : ℚ)
    (c : CycleInput) (a e : String)
    (ha : a ∈ (get_peer_ips dns c.resolveEnv).1)
    (hfail : c.sendResult a = Except.error e) :
    (senderCycle dns msgId port period c).1.map Prod.fst
        = (get_peer_ips dns c.resolveEnv).1
    ∧ LogMsg.sendError a e ∈ (senderCycle dns msgId port period c).2.1
    ∧ (LogMsg.sendError a e).render = "Error sending to " ++ a ++ ": " ++ e := by
  refine ⟨?_, ?_, rfl⟩
  · have hcomp : (Prod.fst ∘ fun ip : String => (ip, port,
        "hola desde " ++ msgId ++ " sent at " ++ nowStr c.tH c.tM c.tS c.tUs))
      = fun ip : String => ip := rfl
    simp [senderCycle, sendAll_fst, List.map_map, hcomp]
  · have hm := sendAll_sendError_mem
      ("hola desde " ++ msgId ++ " sent at " ++ nowStr c.tH c.tM c.tS c.tUs)
      port c.sendResult a e (get_peer_ips dns c.resolveEnv).1 ha hfail
    simp [senderCycle, List.mem_append, hm]

/-- Witness for C5: with three resolved peers of which the send to 10.0.0.2
fails, both other peers are still attempted and the failure is logged. -/
theorem C5_witness :
    (senderCycle "peers-svc" "python-node" 37020 2 cycleB).1.map Prod.fst
      = ["10.0.0.2", "10.0.0.3"]
    ∧ LogMsg.sendError "10.0.0.2" "unreachable"
      ∈ (senderCycle "peers-svc" "python-node" 37020 2 cycleB).2.1 := by
  have h := C5_send_failure_isolated "peers-svc" "python-node" 37020 2 cycleB
    "10.0.0.2" "unreachable" (by decide) rfl
  exact ⟨h.1.trans (by decide), h.2.1⟩

/-- C6: a cycle whose resolution yields no peers performs zero transmission
attempts, logs the no-peers message (rendered `No peers found.`), and still
sleeps the full configured period. -/
theorem C6_empty_peerset_cycle (dns msgId : String) (port : Nat) (period : ℚ)
    (c : CycleInput) (hempty : (get_peer_ips dns c.resolveEnv).1 = []) :
    (senderCycle dns msgId port period c).1 = []
    ∧ LogMsg.noPeersFound ∈ (senderCycle dns msgId port period c).2.1
    ∧ LogMsg.noPeersFound.render = "No peers found."
    ∧ (senderCycle dns msgId port period c).2.2 = period := by
  refine ⟨?_, ?_, rfl, rfl⟩
  · simp [senderCycle, hempty, sendAll]
  · simp [senderCycle, hempty, sendAll]

/-- Witness for C6: a lookup that returns only the node's own address yields
an empty peer list, no attempts, the no-peers log, and the full sleep. -/
theorem C6_witness :
    (senderCycle "peers-svc" "python-node" 37020 2 cycleSelfOnly).1 = []
    ∧ LogMsg.noPeersFound
      ∈ (senderCycle "peers-svc" "python-node" 37020 2 cycleSelfOnly).2.1
    ∧ LogMsg.noPeersFound.render = "No peers found."
    ∧ (senderCycle "peers-svc" "python-node" 37020 2 cycleSelfOnly).2.2 = 2 :=
  C6_empty_peerset_cycle "peers-svc" "python-node" 37020 2 cycleSelfOnly (by decide)

/-- C7: a receiver bind failure is logged and the receive loop exits early,
returning without entering the loop and without raising, while the sender's
output is unchanged — the node continues as a send-only process. -/
theorem C7_bind_failure_send_only (dns msgId : String) (port : Nat) (period : ℚ)
    (e : String) (events : List RecvEvent) (cycles : List CycleInput) :
    receiver port (Except.error e) events = [LogMsg.errorBinding e]
    ∧ (LogMsg.errorBinding e).render = "Error binding receiver: " ++ e
    ∧ (runNode dns msgId port period (Except.error e) events cycles).2
      = (runNode dns msgId port period (Except.ok ()) events cycles).2 :=
  ⟨rfl, rfl, rfl⟩

/-- C8: a datagram whose payload is not valid UTF-8 is logged and dropped
without escaping the loop; the loop processes the remaining events, and every
subsequent valid datagram is still reported. -/
theorem C8_decode_failure_not_fatal (pre post : List RecvEvent) (ip : String)
    (p : Nat) (data : List Nat) (hbad : utf8Decode data = none) :
    receiverRun (pre ++ RecvEvent.datagram ip p data :: post)
      = receiverRun pre ++ LogMsg.errorReceiving unicodeDecodeError :: receiverRun post
    ∧ ∀ ip2 p2 data2 cs2, utf8Decode data2 = some cs2 →
        RecvEvent.datagram ip2 p2 data2 ∈ post →
        LogMsg.received ip2 p2 (String.mk cs2)
          ∈ receiverRun (pre ++ RecvEvent.datagram ip p data :: post) := by
  have hstep : (receiverStep (RecvEvent.datagram ip p data)).1
      = [LogMsg.errorReceiving unicodeDecodeError] := by
    simp [receiverStep, hbad]
  constructor
  · rw [receiverRun_append]
    show receiverRun pre
        ++ ((receiverStep (RecvEvent.datagram ip p data)).1 ++ receiverRun post) = _
    rw [hstep]
    rfl
  · intro ip2 p2 data2 cs2 hgood hmem
    have hl : LogMsg.received ip2 p2 (String.mk cs2)
        ∈ (receiverStep (RecvEvent.datagram ip2 p2 data2)).1 := by
      simp [receiverStep, hgood]
    exact receiverRun_mem _ _
      (List.mem_append.mpr (Or.inr (List.mem_cons_of_mem _ hmem))) _ hl

/-- Witness for C8: the lone byte 0xFF is rejected and logged, and the
following valid datagram is still processed. -/
theorem C8_witness :
    receiverRun ([] ++ RecvEvent.datagram "10.0.0.5" 37020 [255]
        :: [RecvEvent.datagram "127.0.0.1" 37020 [104, 105]])
      = receiverRun [] ++ LogMsg.errorReceiving unicodeDecodeError
        :: receiverRun [RecvEvent.datagram "127.0.0.1" 37020 [104, 105]] :=
  (C8_decode_failure_not_fatal [] [RecvEvent.datagram "127.0.0.1" 37020 [104, 105]]
    "10.0.0.5" 37020 [255] (by decide)).1

/-- C9: with the identifier unset, each cycle's resolved peer list is exactly
the broadcast sentinel singleton — never empty — so broadcast mode performs
exactly one transmission attempt per cycle and never logs the no-peers
message. -/
theorem C9_broadcast_single_attempt (msgId : String) (port : Nat) (period : ℚ)
    (c : CycleInput) :
    get_peer_ips "" c.resolveEnv = (["<broadcast>"], [])
    ∧ (senderCycle "" msgId port period c).1
      = [("<broadcast>", port,
          "hola desde " ++ msgId ++ " sent at " ++ nowStr c.tH c.tM c.tS c.tUs)]
    ∧ LogMsg.noPeersFound ∉ (senderCycle "" msgId port period c).2.1 := by
  refine ⟨rfl, ?_, ?_⟩
  · simp [senderCycle, get_peer_ips, sendAll_fst]
  · have hlogs : (senderCycle "" msgId port period c).2.1
        = (sendAll ("hola desde " ++ msgId ++ " sent at " ++ nowStr c.tH c.tM c.tS c.tUs)
            port c.sendResult ["<broadcast>"]).2 := by
      simp [senderCycle, get_peer_ips]
    rw [hlogs]
    intro hmem
    rcases sendAll_snd_shape _ _ _ _ _ hmem with ⟨ip2, e2, habs⟩
    exact LogMsg.noConfusion habs

/-- C10: in the receive loop a UTF-8 decode failure takes the same
except-branch as a socket receive failure: the malformed datagram is logged
as an error-receiving event and incurs the same 1-second pause before the
next receive that a transport error does, not a pause-free drop. -/
theorem C10_decode_shares_error_branch (ip : String) (p : Nat) (data : List Nat)
    (e : String) (hbad : utf8Decode data = none) :
    receiverStep (RecvEvent.datagram ip p data)
      = ([LogMsg.errorReceiving unicodeDecodeError], 1)
    ∧ receiverStep (RecvEvent.recvErr e) = ([LogMsg.errorReceiving e], 1)
    ∧ (receiverStep (RecvEvent.datagram ip p data)).2
      = (receiverStep (RecvEvent.recvErr e)).2 := by
  have h1 : receiverStep (RecvEvent.datagram ip p data)
      = ([LogMsg.errorReceiving unicodeDecodeError], 1) := by
    simp [receiverStep, hbad]
  exact ⟨h1, rfl, by simp [receiverStep, hbad]⟩

/-- Witness for C10: the malformed byte 0xFF and a transport error both log
an error-receiving event and pause for one second. -/
theorem C10_witness :
    receiverStep (RecvEvent.datagram "10.0.0.5" 37020 [255])
      = ([LogMsg.errorReceiving unicodeDecodeError], 1)
    ∧ receiverStep (RecvEvent.recvErr "transient error")
      = ([LogMsg.errorReceiving "transient error"], 1)
    ∧ (receiverStep (RecvEvent.datagram "10.0.0.5" 37020 [255])).2
      = (receiverStep (RecvEvent.recvErr "transient error")).2 :=
  C10_decode_shares_error_branch "10.0.0.5" 37020 [255] "transient error" (by decide)
